import Mathlib

/-!
Shallow embedding of the aggregation pipeline of src/DXC_Analytics.py.

The script fetches rows of the live_dispatches table into a dataframe and
derives a handful of summary tables.  Records are modelled as a list of
structures; the dataframe pre-processing (lines 35-41) becomes `normalize`,
and each groupby/aggregate becomes a Lean function over the record list.
pandas `groupby` sorts group keys in ascending order by default; this is
modelled with `List.insertionSort`.  A `pd.Grouper(key=..., freq=ME)`
grouping produces one bin for every calendar month between the earliest and
the latest date, empty bins included; `monthly_data` mirrors that.  The mean
of an empty column is NaN in pandas, modelled as `none : Option Rat`.
-/

namespace DXC

/-- A calendar date, as obtained from parsing the CheckInDate column
(line 35, pd.to_datetime). -/
structure Date where
  year : Nat
  month : Nat
  day : Nat
deriving DecidableEq, Repr

/-- Linear index of the calendar month of a date: the month_year_str value
derived on line 41 (dt.to_period of M), encoded so that the string order of
YYYY-MM agrees with the numeric order of the index. -/
def Date.monthIdx (d : Date) : Nat := d.year * 12 + (d.month - 1)

/-- The raw Hours cell (line 38): a numeric value, a non-numeric string
(coerced to NaN by pd.to_numeric with errors=coerce), or missing/NaN. -/
inductive RawHours where
  | num (q : Rat)
  | nonNumeric
  | missing
deriving DecidableEq, Repr

/-- One row of the live_dispatches table.  monthYearStr is the derived
month_year_str column, absent before the pre-processing pass adds it. -/
structure RawRecord where
  checkInDate : Date
  hours : RawHours
  site : String
  subtype : Option String
  item : Option String
  monthYearStr : Option Nat
deriving DecidableEq, Repr

/-- Numeric coercion of the Hours cell: pd.to_numeric(errors=coerce)
followed by fillna(0) — line 38.  Non-numeric and missing become 0;
numeric values (negative ones included) pass through. -/
def coerceHours : RawHours → Rat
  | .num q => q
  | .nonNumeric => 0
  | .missing => 0

/-- The Hours value an aggregate sees after the pre-processing pass. -/
def RawRecord.hoursVal (r : RawRecord) : Rat := coerceHours r.hours

/-- The month bucket an aggregate groups by after the pre-processing pass. -/
def RawRecord.monthKey (r : RawRecord) : Nat := r.checkInDate.monthIdx

/-- Pre-processing of one row (lines 35-41): the date column is already
parsed (to_datetime of a datetime is the identity), Hours is coerced to a
number with 0 for NaN, and month_year_str is derived from the date. -/
def normalizeRecord (r : RawRecord) : RawRecord :=
  { r with hours := RawHours.num (coerceHours r.hours),
           monthYearStr := some r.checkInDate.monthIdx }

/-- The pre-processing pass over the whole dataframe (lines 35-41). -/
def normalize (rs : List RawRecord) : List RawRecord := rs.map normalizeRecord

/-- Code-point lexicographic comparison of character lists: the order in
which pandas sorts string group keys (Python string comparison). -/
def charListLe : List Char → List Char → Bool
  | [], _ => true
  | _ :: _, [] => false
  | a :: as, b :: bs =>
    if a.toNat < b.toNat then true
    else if b.toNat < a.toNat then false
    else charListLe as bs

/-- Code-point lexicographic comparison of strings. -/
def strLe (a b : String) : Bool := charListLe a.data b.data

/-- The ascending order pandas uses on string group keys. -/
def siteLe (a b : String) : Prop := strLe a b = true

instance : DecidableRel siteLe := fun a b => by
  unfold siteLe; exact inferInstance

/-- Mean of a list of rationals, NaN (none) on the empty list, as pandas
Series.mean. -/
def listAvg (l : List Rat) : Option Rat :=
  if l.isEmpty then none else some (l.sum / (l.length : Rat))

/-- Mean of a nonempty group column; used where every group is nonempty by
construction (groupby only forms groups that occur in the data). -/
def ratMean (l : List Rat) : Rat := l.sum / (l.length : Rat)

/-- Rows of the selected month (line 50). -/
def monthFilter (rs : List RawRecord) (m : Nat) : List RawRecord :=
  rs.filter (fun r => r.monthKey == m)

/-- tickets_per_site (lines 74-76): groupby Site with a count aggregate.
pandas sorts the group keys ascending (groupby default sort=True). -/
def tickets_per_site (rs : List RawRecord) : List (String × Nat) :=
  (List.insertionSort siteLe ((rs.map (fun r => r.site)).dedup)).map
    (fun s => (s, (rs.filter (fun r => r.site == s)).length))

/-- The Monthly Breakdown section (lines 50-76) for one selected month. -/
structure MonthlyBreakdown where
  count : Nat
  avgHours : Option Rat
  perSiteCounts : List (String × Nat)
deriving DecidableEq, Repr

/-- monthlyBreakdown(records, month): total_tickets (line 56),
avg_time_to_close (line 59) and tickets_per_site (lines 74-76). -/
def monthlyBreakdown (rs : List RawRecord) (m : Nat) : MonthlyBreakdown :=
  { count := (monthFilter rs m).length
    avgHours := listAvg ((monthFilter rs m).map (fun r => r.hoursVal))
    perSiteCounts := tickets_per_site (monthFilter rs m) }

/-- One row of monthly_data (lines 96-99). -/
structure TrendRow where
  month : Nat
  count : Nat
  avgHours : Option Rat
deriving DecidableEq, Repr

/-- monthlyTrend (lines 96-99): groupby with pd.Grouper(freq=ME) bins the
rows by calendar month and produces one bin for EVERY month between the
earliest and the latest date present, empty bins included (count 0, NaN
mean), in chronological order. -/
def monthlyTrend : List RawRecord → List TrendRow
  | [] => []
  | r :: rest =>
    let rs := r :: rest
    let lo := rest.foldl (fun a x => min a x.monthKey) r.monthKey
    let hi := rest.foldl (fun a x => max a x.monthKey) r.monthKey
    (List.range (hi + 1 - lo)).map (fun i =>
      { month := lo + i
        count := (monthFilter rs (lo + i)).length
        avgHours := listAvg ((monthFilter rs (lo + i)).map (fun r => r.hoursVal)) })

/-- Ascending order on (Site, month) pairs, the key order of the two-column
groupby on line 137 (pandas sorts the MultiIndex lexicographically). -/
def pairLe (p q : String × Nat) : Prop :=
  (if p.1 == q.1 then Nat.ble p.2 q.2 else strLe p.1 q.1) = true

instance : DecidableRel pairLe := fun p q => by
  unfold pairLe; exact inferInstance

/-- tickets_per_site_per_month (lines 137-139): first-stage groupby on
(Site, month_year_str) with a count aggregate, keys sorted ascending. -/
def tickets_per_site_per_month (rs : List RawRecord) : List ((String × Nat) × Nat) :=
  (List.insertionSort pairLe ((rs.map (fun r => (r.site, r.monthKey))).dedup)).map
    (fun p => (p, (rs.filter (fun r => r.site == p.1 && r.monthKey == p.2)).length))

/-- avg_tickets_by_site (lines 142-144): second-stage groupby on Site of the
first-stage counts, with a mean aggregate.  Every group is nonempty because
its key comes from the first-stage table. -/
def avg_tickets_by_site (rs : List RawRecord) : List (String × Rat) :=
  (List.insertionSort siteLe
      (((tickets_per_site_per_month rs).map (fun p => p.1.1)).dedup)).map
    (fun s => (s, ratMean (((tickets_per_site_per_month rs).filter
        (fun p => p.1.1 == s)).map (fun p => (p.2 : Rat)))))

/-- tickets_by_month (lines 163-165): groupby month_year_str, count. -/
def tickets_by_month (rs : List RawRecord) : List (Nat × Nat) :=
  (List.insertionSort (· ≤ ·) ((rs.map (fun r => r.monthKey)).dedup)).map
    (fun m => (m, (rs.filter (fun r => r.monthKey == m)).length))

/-- filtered_tickets (line 187): dropna on the Subtype and Item columns. -/
def validSubtypeRecords (rs : List RawRecord) : List RawRecord :=
  rs.filter (fun r => r.subtype.isSome && r.item.isSome)

/-- The month selector of the breakdown charts (lines 190-197): either the
All Tickets mode or one month. -/
inductive MonthSel where
  | all
  | month (m : Nat)
deriving DecidableEq, Repr

/-- monthly_filtered_data (lines 194-197). -/
def modeFilter (rs : List RawRecord) : MonthSel → List RawRecord
  | .all => rs
  | .month m => rs.filter (fun r => r.monthKey == m)

/-- subtypeBreakdown (lines 187-203): dropna on Subtype/Item, month filter,
then groupby Subtype with a count aggregate (keys sorted ascending). -/
def subtypeBreakdown (rs : List RawRecord) (sel : MonthSel) : List (String × Nat) :=
  (List.insertionSort siteLe
      (((modeFilter (validSubtypeRecords rs) sel).map (fun r => r.subtype.getD "")).dedup)).map
    (fun t => (t, ((modeFilter (validSubtypeRecords rs) sel).filter
        (fun r => r.subtype.getD "" == t)).length))

/-- siteBreakdownForSubtype (lines 254-281): filter to the chosen subtype;
an empty filtered set yields the explicit no-data signal (st.info), a
nonempty one the per-site count table. -/
def siteBreakdownForSubtype (rs : List RawRecord) (sub : String) (sel : MonthSel) :
    Option (List (String × Nat)) :=
  let f := (modeFilter (validSubtypeRecords rs) sel).filter
      (fun r => r.subtype.getD "" == sub)
  if f.isEmpty then none else some (tickets_per_site f)

/-- The top-level render outcome: the empty-data guard on line 32 either
renders the dashboard from the pre-processed rows or (line 286) shows the
warning and does nothing else. -/
inductive RenderResult where
  | warning (msg : String)
  | dashboard (rows : List RawRecord)
deriving DecidableEq, Repr

/-- The warning text of line 286. -/
def emptyWarning : String :=
  "No data found in the `live_dispatches` table. Please check your database connection and table name."

/-- Top-level control flow (lines 30-286). -/
def appRender (rs : List RawRecord) : RenderResult :=
  if rs.isEmpty then RenderResult.warning emptyWarning
  else RenderResult.dashboard (normalize rs)

/-! Auxiliary views of the record set used to state the claims. -/

/-- The records of one site. -/
def siteRecords (rs : List RawRecord) (s : String) : List RawRecord :=
  rs.filter (fun r => r.site == s)

/-- The month of every record of one site (with multiplicity). -/
def siteMonthList (rs : List RawRecord) (s : String) : List Nat :=
  (siteRecords rs s).map (fun r => r.monthKey)

/-- The ticket count of one (site, month) cell. -/
def siteMonthCount (rs : List RawRecord) (s : String) (m : Nat) : Nat :=
  (rs.filter (fun r => r.site == s && r.monthKey == m)).length

/-- The number of distinct months present anywhere in the data. -/
def totalMonths (rs : List RawRecord) : Nat :=
  ((rs.map (fun r => r.monthKey)).dedup).length

/-- The single-stage, record-weighted mean the spec warns against: average,
over the records of one site, of the ticket count of the record's own
(site, month) cell. -/
def flatPerRecordAvg (rs : List RawRecord) (s : String) : Rat :=
  ratMean ((siteRecords rs s).map (fun r => (siteMonthCount rs s r.monthKey : Rat)))

/-- Per-site count table in first-seen site order, as the spec describes
the display order of tickets_per_site (for comparison with the
sorted order the code produces). -/
def perSiteCountsFirstSeen (rs : List RawRecord) : List (String × Nat) :=
  ((rs.map (fun r => r.site)).dedup).map
    (fun s => (s, (rs.filter (fun r => r.site == s)).length))

/-!
Session-state model for the pie-chart selection (lines 15-17, 230-249).
A Streamlit script runs top-to-bottom on every interaction; the only keys
the script ever stores are the two widget keys (breakdown_month_selector,
subtype_select_box) and the selection key, which lines 16-17 initialize
to None and which no other statement assigns.
-/

/-- The value a chart click would deposit: a dict of field name to list of
clicked values (what the retrieval on line 233 expects). -/
structure ChartSelection where
  fields : List (String × List (Option String))
deriving DecidableEq, Repr

/-- The session state of one viewer session. -/
structure SessionState where
  selection : Option ChartSelection
  breakdownMonthSelector : Option Nat
  subtypeSelectBox : Option String
deriving DecidableEq, Repr

/-- The widget values the user picked during one script run. -/
structure ScriptInputs where
  breakdownMonth : Nat
  pieMonth : MonthSel
  subtypeChoice : String
deriving DecidableEq, Repr

/-- Lines 231-233: read the subtype from the chart selection state.  A None
or empty (falsy) selection yields None; otherwise the first entry of the
Subtype field, with [None] as the default. -/
def selectedSubtypeFromChart (st : SessionState) : Option String :=
  match st.selection with
  | none => none
  | some c =>
    if c.fields.isEmpty then none
    else (((List.lookup "Subtype" c.fields).getD [none]).headD none)

/-- Lines 239-241: the initial index of the subtype selectbox, 0 unless the
chart yielded a truthy subtype that occurs among the options. -/
def initialIndex (st : SessionState) (opts : List String) : Nat :=
  match selectedSubtypeFromChart st with
  | none => 0
  | some s => if s ≠ "" ∧ s ∈ opts then opts.indexOf s else 0

/-- One top-to-bottom run of the script: the two keyed widgets store their
values; no statement assigns the selection key, so it is carried over. -/
def scriptRun (st : SessionState) (inp : ScriptInputs) : SessionState :=
  { selection := st.selection
    breakdownMonthSelector := some inp.breakdownMonth
    subtypeSelectBox := some inp.subtypeChoice }

/-- The state after lines 16-17 of the first run: the selection key exists
and holds None, the widgets have not run yet. -/
def initialState : SessionState :=
  { selection := none, breakdownMonthSelector := none, subtypeSelectBox := none }

/-- States a session can be in at the retrieval point (line 231): the
initial state, or the result of any further script run. -/
inductive Reachable : SessionState → Prop where
  | init : Reachable initialState
  | step (st : SessionState) (inp : ScriptInputs) :
      Reachable st → Reachable (scriptRun st inp)

/-! ### Generic list lemmas -/

theorem length_filter_key {α β : Type} [BEq β] (key : α → β) (l : List α) (k : β) :
    (l.filter (fun a => key a == k)).length = (l.map key).count k := by
  rw [← List.countP_eq_length_filter, List.count, List.countP_map]
  rfl

theorem count_decEq {β : Type} [BEq β] [LawfulBEq β] [DecidableEq β] (x : β) (l : List β) :
    @List.count β instBEqOfDecidableEq x l = l.count x := by
  show List.countP (fun a => decide (a = x)) l = List.countP (fun a => a == x) l
  apply List.countP_congr
  intro a _
  by_cases h : a = x <;> simp [h]

/-- Grouping a list by a key and summing the per-group sizes recovers the
length: the heart of every count-preservation property of a groupby. -/
theorem sum_counts_by_key {α β : Type} [DecidableEq β] [BEq β] [LawfulBEq β]
    (key : α → β) (l : List α) :
    (((l.map key).dedup).map (fun k => (l.filter (fun a => key a == k)).length)).sum
      = l.length := by
  have h1 : (fun k => (l.filter (fun a => key a == k)).length)
      = (fun k => (l.map key).count k) := funext (length_filter_key key l)
  rw [h1]
  have h2 := List.sum_map_count_dedup_eq_length (l.map key)
  rw [List.length_map] at h2
  simp only [count_decEq] at h2
  exact h2

theorem charListLe_total : ∀ as bs : List Char,
    charListLe as bs = true ∨ charListLe bs as = true
  | [], _ => Or.inl rfl
  | _ :: _, [] => Or.inr rfl
  | a :: as, b :: bs => by
    rcases Nat.lt_trichotomy a.toNat b.toNat with h | h | h
    · left
      simp [charListLe, h]
    · have h1 : ¬ a.toNat < b.toNat := by omega
      have h2 : ¬ b.toNat < a.toNat := by omega
      rcases charListLe_total as bs with ih | ih
      · left; simp [charListLe, h1, h2, ih]
      · right; simp [charListLe, h1, h2, ih]
    · right
      simp [charListLe, h]

theorem charListLe_trans : ∀ as bs cs : List Char,
    charListLe as bs = true → charListLe bs cs = true → charListLe as cs = true
  | [], _, _ => fun _ _ => rfl
  | _ :: _, [], _ => fun h _ => by simp [charListLe] at h
  | _ :: _, _ :: _, [] => fun _ h => by simp [charListLe] at h
  | a :: as, b :: bs, c :: cs => fun h1 h2 => by
    simp only [charListLe] at h1 h2 ⊢
    by_cases hba : b.toNat < a.toNat
    · have hab : ¬ a.toNat < b.toNat := by omega
      simp [hab, hba] at h1
    · by_cases hcb : c.toNat < b.toNat
      · have hbc : ¬ b.toNat < c.toNat := by omega
        simp [hbc, hcb] at h2
      · by_cases hac : a.toNat < c.toNat
        · simp [hac]
        · have hab : ¬ a.toNat < b.toNat := by omega
          have hbc : ¬ b.toNat < c.toNat := by omega
          have hca : ¬ c.toNat < a.toNat := by omega
          have h1' : charListLe as bs = true := by simpa [hab, hba] using h1
          have h2' : charListLe bs cs = true := by simpa [hbc, hcb] using h2
          simp [hac, hca, charListLe_trans as bs cs h1' h2']

instance : IsTotal String siteLe :=
  ⟨fun a b => charListLe_total a.data b.data⟩

instance : IsTrans String siteLe :=
  ⟨fun a b c h1 h2 => charListLe_trans a.data b.data c.data h1 h2⟩

/-- Looking up a key in a table whose rows are built from a key list by a
value function returns the value of the key, for any key in the list. -/
theorem lookup_map_key {α β : Type} [BEq α] [LawfulBEq α] (g : α → β) (s : α) :
    ∀ keys : List α, s ∈ keys →
      List.lookup s (keys.map (fun k => (k, g k))) = some (g s) := by
  intro keys hmem
  induction keys with
  | nil => cases hmem
  | cons k t ih =>
    by_cases hk : s = k
    · subst hk; simp [List.lookup]
    · have hne : (s == k) = false := by simp [hk]
      have hst : s ∈ t := by
        rcases List.mem_cons.mp hmem with h | h
        · exact absurd h hk
        · exact h
      simp [List.lookup, hne, ih hst]

theorem dedup_filter_comm {α : Type} [DecidableEq α] (p : α → Bool) :
    ∀ l : List α, (l.filter p).dedup = l.dedup.filter p := by
  intro l
  induction l with
  | nil => rfl
  | cons x t ih =>
    by_cases hx : x ∈ t
    · rw [List.dedup_cons_of_mem hx]
      by_cases hp : p x
      · have hxf : x ∈ t.filter p := List.mem_filter.mpr ⟨hx, hp⟩
        rw [List.filter_cons_of_pos hp, List.dedup_cons_of_mem hxf, ih]
      · rw [List.filter_cons_of_neg (by simpa using hp), ih]
    · rw [List.dedup_cons_of_not_mem hx]
      by_cases hp : p x
      · have hxf : x ∉ t.filter p := fun hc => hx (List.mem_filter.mp hc).1
        rw [List.filter_cons_of_pos hp, List.filter_cons_of_pos hp,
          List.dedup_cons_of_not_mem hxf, ih]
      · rw [List.filter_cons_of_neg (by simpa using hp),
          List.filter_cons_of_neg (by simpa using hp), ih]

theorem dedup_map_inj {α β : Type} [DecidableEq α] [DecidableEq β] {f : α → β}
    (hf : Function.Injective f) :
    ∀ l : List α, (l.map f).dedup = l.dedup.map f := by
  intro l
  induction l with
  | nil => rfl
  | cons x t ih =>
    by_cases hx : x ∈ t
    · have hfx : f x ∈ t.map f := List.mem_map_of_mem f hx
      rw [List.map_cons, List.dedup_cons_of_mem hfx, List.dedup_cons_of_mem hx, ih]
    · have hfx : f x ∉ t.map f := by
        intro hc
        rcases List.mem_map.mp hc with ⟨y, hy, hxy⟩
        exact hx (hf hxy ▸ hy)
      rw [List.map_cons, List.dedup_cons_of_not_mem hfx,
        List.dedup_cons_of_not_mem hx, List.map_cons, ih]

theorem ratMean_perm {l1 l2 : List Rat} (h : l1.Perm l2) : ratMean l1 = ratMean l2 := by
  unfold ratMean
  rw [h.sum_eq, h.length_eq]

theorem list_toFinset_dedup {β : Type} [DecidableEq β] (l : List β) :
    l.dedup.toFinset = l.toFinset := by
  ext a
  simp [List.mem_toFinset, List.mem_dedup]

/-- Grouping a sum by value: summing f over a list is summing
multiplicity times f over the deduplicated list. -/
theorem sum_map_count_mul {l : List Nat} (f : Nat → Rat) :
    (l.map (fun x => f x)).sum
      = (l.dedup.map (fun m => (l.count m : Rat) * f m)).sum := by
  rw [Finset.sum_list_map_count]
  rw [← List.sum_toFinset _ (List.nodup_dedup l), list_toFinset_dedup]
  congr 1
  funext a
  simp [nsmul_eq_mul]

theorem sum_map_sq_expand (x : Rat) : ∀ t : List Rat,
    (t.map (fun y => (x - y)^2)).sum
      = (t.length : Rat) * x^2 - 2*x*t.sum + (t.map (fun y => y^2)).sum := by
  intro t
  induction t with
  | nil => simp
  | cons y t ih =>
    simp only [List.map_cons, List.sum_cons, List.length_cons, ih]
    push_cast
    ring

theorem listD_cons (x : Rat) (t : List Rat) :
    ((x :: t).length : Rat) * ((x :: t).map (fun y => y^2)).sum - ((x :: t).sum)^2
      = (t.map (fun y => (x - y)^2)).sum
        + ((t.length : Rat) * (t.map (fun y => y^2)).sum - (t.sum)^2) := by
  rw [sum_map_sq_expand]
  simp only [List.map_cons, List.sum_cons, List.length_cons]
  push_cast
  ring

theorem listD_nonneg : ∀ c : List Rat,
    0 ≤ (c.length : Rat) * (c.map (fun y => y^2)).sum - (c.sum)^2
  | [] => by simp
  | x :: t => by
    rw [listD_cons]
    have h1 : 0 ≤ (t.map (fun y => (x - y)^2)).sum := by
      apply List.sum_nonneg
      intro a ha
      rcases List.mem_map.mp ha with ⟨y, _, rfl⟩
      positivity
    have h2 := listD_nonneg t
    linarith

/-- A list with two distinct entries has positive variance: the strict
part of the Cauchy-Schwarz bound separating the two averages. -/
theorem listD_pos : ∀ c : List Rat, (∃ a ∈ c, ∃ b ∈ c, a ≠ b) →
    0 < (c.length : Rat) * (c.map (fun y => y^2)).sum - (c.sum)^2
  | [], h => by
    rcases h with ⟨a, ha, _⟩
    exact absurd ha (List.not_mem_nil a)
  | x :: t, h => by
    rw [listD_cons]
    have hnn : ∀ a ∈ t.map (fun y => (x - y)^2), 0 ≤ a := by
      intro a ha
      rcases List.mem_map.mp ha with ⟨y, _, rfl⟩
      positivity
    have hD := listD_nonneg t
    by_cases hx : ∃ y ∈ t, y ≠ x
    · rcases hx with ⟨y, hy, hxy⟩
      have hne : x - y ≠ 0 := sub_ne_zero.mpr (Ne.symm hxy)
      have hterm : 0 < (x - y)^2 := pow_two_pos_of_ne_zero hne
      have hle : (x - y)^2 ≤ (t.map (fun z => (x - z)^2)).sum :=
        List.single_le_sum hnn _ (List.mem_map_of_mem (fun z => (x - z)^2) hy)
      linarith
    · push_neg at hx
      rcases h with ⟨a, ha, b, hb, hab⟩
      have hax : a = x := by
        rcases List.mem_cons.mp ha with h' | h'
        · exact h'
        · exact hx a h'
      have hbx : b = x := by
        rcases List.mem_cons.mp hb with h' | h'
        · exact h'
        · exact hx b h'
      exact absurd (hax.trans hbx.symm) hab

/-- On a positive list with two distinct entries, the plain mean is
strictly below the self-weighted mean. -/
theorem mean_lt_selfWeighted (c : List Rat) (hpos : ∀ a ∈ c, 0 < a)
    (hne : ∃ a ∈ c, ∃ b ∈ c, a ≠ b) :
    c.sum / (c.length : Rat) < (c.map (fun y => y^2)).sum / c.sum := by
  have hD := listD_pos c hne
  have hnil : c ≠ [] := by
    rintro rfl
    rcases hne with ⟨a, ha, _⟩
    exact absurd ha (List.not_mem_nil a)
  have hlen : 0 < (c.length : Rat) := by
    have := List.length_pos.mpr hnil
    exact_mod_cast this
  have hsum : 0 < c.sum := List.sum_pos c hpos hnil
  rw [div_lt_div_iff₀ hlen hsum]
  nlinarith [hD]

/-! ### Claim theorems -/

theorem normalizeRecord_idem (r : RawRecord) :
    normalizeRecord (normalizeRecord r) = normalizeRecord r := rfl

/-- C8: the normalize pass is idempotent — pre-processing an
already-pre-processed record collection returns it unchanged. -/
theorem normalize_idempotent (rs : List RawRecord) :
    normalize (normalize rs) = normalize rs := by
  induction rs with
  | nil => rfl
  | cons r t ih =>
    show normalizeRecord (normalizeRecord r) :: normalize (normalize t)
        = normalizeRecord r :: normalize t
    rw [normalizeRecord_idem, ih]

/-- C9: an empty fetch renders only the user-visible warning, and on empty
input every aggregate of the pipeline returns an empty or zero-valued
result (the empty-set mean being the NaN placeholder none). -/
theorem empty_input_behavior :
    appRender [] = RenderResult.warning emptyWarning ∧
    (∀ m : Nat, monthlyBreakdown [] m = ⟨0, none, []⟩) ∧
    monthlyTrend [] = [] ∧
    avg_tickets_by_site [] = [] ∧
    tickets_by_month [] = [] ∧
    (∀ sel : MonthSel, subtypeBreakdown [] sel = []) ∧
    (∀ sub : String, ∀ sel : MonthSel, siteBreakdownForSubtype [] sub sel = none) := by
  refine ⟨rfl, fun m => rfl, rfl, rfl, rfl, fun sel => ?_, fun sub sel => ?_⟩
  · cases sel <;> rfl
  · cases sel <;> rfl

/-- C10: the chart-click selection state is initialized to None and never
written by any script run, so the subtype read back from the chart is
always None, the selectbox initial index is always 0 (All Subtypes), and
only the dropdown value selects a subtype. -/
theorem selection_state_dead (st : SessionState) (h : Reachable st) :
    st.selection = none ∧
    selectedSubtypeFromChart st = none ∧
    (∀ opts : List String, initialIndex st opts = 0) ∧
    (∀ inp : ScriptInputs, (scriptRun st inp).subtypeSelectBox = some inp.subtypeChoice) := by
  have hsel : st.selection = none := by
    induction h with
    | init => rfl
    | step st' inp h' ih => exact ih
  refine ⟨hsel, ?_, ?_, fun inp => rfl⟩
  · simp [selectedSubtypeFromChart, hsel]
  · intro opts
    simp [initialIndex, selectedSubtypeFromChart, hsel]

theorem selection_state_dead_witness :
    initialState.selection = none ∧
    selectedSubtypeFromChart initialState = none ∧
    initialIndex initialState ["All Subtypes"] = 0 ∧
    (scriptRun initialState ⟨0, MonthSel.all, "Hardware"⟩).subtypeSelectBox
      = some "Hardware" :=
  ⟨(selection_state_dead initialState Reachable.init).1,
   (selection_state_dead initialState Reachable.init).2.1,
   (selection_state_dead initialState Reachable.init).2.2.1 ["All Subtypes"],
   (selection_state_dead initialState Reachable.init).2.2.2 ⟨0, MonthSel.all, "Hardware"⟩⟩

/-- Record constructor for the concrete scenarios. -/
def exRecord (y mo d : Nat) (h : RawHours) (s : String) : RawRecord :=
  { checkInDate := ⟨y, mo, d⟩, hours := h, site := s,
    subtype := none, item := none, monthYearStr := none }

/-- The record set of the spec scenario for the monthly breakdown. -/
def exC6 : List RawRecord :=
  [ exRecord 2024 1 5 (RawHours.num 2) "A",
    exRecord 2024 1 20 RawHours.nonNumeric "A",
    exRecord 2024 2 1 (RawHours.num 4) "B" ]

/-- The month bucket of January 2024. -/
def jan2024 : Nat := Date.monthIdx ⟨2024, 1, 1⟩

/-- A sorted groupby count table: the per-group sizes sum to the length of
the grouped list, whatever the key and the sort relation. -/
theorem sum_sorted_counts_by_key {α β : Type} [DecidableEq β] [BEq β] [LawfulBEq β]
    (key : α → β) (r : β → β → Prop) [DecidableRel r] (l : List α) :
    (((List.insertionSort r ((l.map key).dedup)).map
        (fun k => (k, (l.filter (fun a => key a == k)).length))).map
        (fun p => p.2)).sum = l.length := by
  rw [List.map_map]
  have hperm := (List.perm_insertionSort r ((l.map key).dedup)).map
      (fun k => (l.filter (fun a => key a == k)).length)
  have hsum : ((List.insertionSort r ((l.map key).dedup)).map
      (fun k => (l.filter (fun a => key a == k)).length)).sum
      = (((l.map key).dedup).map (fun k => (l.filter (fun a => key a == k)).length)).sum :=
    hperm.sum_eq
  calc ((List.insertionSort r ((l.map key).dedup)).map
        ((fun p : β × Nat => p.2) ∘ (fun k => (k, (l.filter (fun a => key a == k)).length)))).sum
      = ((List.insertionSort r ((l.map key).dedup)).map
        (fun k => (l.filter (fun a => key a == k)).length)).sum := rfl
    _ = (((l.map key).dedup).map (fun k => (l.filter (fun a => key a == k)).length)).sum := hsum
    _ = l.length := sum_counts_by_key key l

/-- C2: for every record collection and month, the per-site counts of the
monthly breakdown sum to the ticket count the breakdown reports. -/
theorem perSite_sum_eq_count (rs : List RawRecord) (m : Nat) :
    (((monthlyBreakdown rs m).perSiteCounts).map (fun p => p.2)).sum
      = (monthlyBreakdown rs m).count := by
  show (((List.insertionSort siteLe
      (((monthFilter rs m).map (fun r => r.site)).dedup)).map
      (fun k => (k, ((monthFilter rs m).filter (fun a => a.site == k)).length))).map
      (fun p => p.2)).sum = (monthFilter rs m).length
  exact sum_sorted_counts_by_key (fun r => r.site) siteLe (monthFilter rs m)

theorem validSubtypeRecords_idem (rs : List RawRecord) :
    validSubtypeRecords (validSubtypeRecords rs) = validSubtypeRecords rs := by
  unfold validSubtypeRecords
  rw [List.filter_filter]
  simp only [Bool.and_self]

/-- C7: records with a missing subtype or item are excluded before
counting — dropping them beforehand changes nothing, and the count total is
the number of complete records in the selected month range, so excluded
records contribute to no subtype count and not to the total. -/
theorem subtypeBreakdown_excludes (rs : List RawRecord) (sel : MonthSel) :
    subtypeBreakdown rs sel = subtypeBreakdown (validSubtypeRecords rs) sel ∧
    ((subtypeBreakdown rs sel).map (fun p => p.2)).sum
      = (modeFilter (validSubtypeRecords rs) sel).length := by
  constructor
  · unfold subtypeBreakdown
    rw [validSubtypeRecords_idem]
  · show (((List.insertionSort siteLe
        (((modeFilter (validSubtypeRecords rs) sel).map
          (fun r => r.subtype.getD "")).dedup)).map
        (fun k => (k, ((modeFilter (validSubtypeRecords rs) sel).filter
          (fun a => a.subtype.getD "" == k)).length))).map
        (fun p => p.2)).sum = (modeFilter (validSubtypeRecords rs) sel).length
    exact sum_sorted_counts_by_key (fun r => r.subtype.getD "") siteLe
      (modeFilter (validSubtypeRecords rs) sel)

/-- C6: on the scenario records, the January 2024 breakdown counts 2
tickets, averages the hours 2 and the coerced 0 to 1.0, and the per-site
table is A with 2 tickets. -/
theorem monthlyBreakdown_scenario :
    (monthlyBreakdown exC6 jan2024).count = 2 ∧
    (monthlyBreakdown exC6 jan2024).avgHours = some 1 ∧
    (monthlyBreakdown exC6 jan2024).perSiteCounts = [("A", 2)] := by
  refine ⟨rfl, ?_, rfl⟩
  show listAvg [(2 : Rat), 0] = some 1
  norm_num [listAvg]

/-- Sites first seen as B then A, in one month. -/
def exC5 : List RawRecord :=
  [ exRecord 2024 1 3 (RawHours.num 1) "B",
    exRecord 2024 1 9 (RawHours.num 1) "A" ]

/-- C5 counterexample: the per-site table of the code is in ascending site
label order, which differs from the first-seen order of the records. -/
theorem perSiteCounts_order_counterexample :
    (monthlyBreakdown exC5 jan2024).perSiteCounts = [("A", 1), ("B", 1)] ∧
    perSiteCountsFirstSeen (monthFilter exC5 jan2024) = [("B", 1), ("A", 1)] ∧
    (monthlyBreakdown exC5 jan2024).perSiteCounts
      ≠ perSiteCountsFirstSeen (monthFilter exC5 jan2024) := by
  refine ⟨rfl, rfl, ?_⟩
  decide

/-- C5 (amended): the per-site table of the monthly breakdown lists each
site of the month-filtered records exactly once with its ticket count, in
ascending site-label order (the pandas groupby default sort), not in
first-seen order. -/
theorem perSiteCounts_sorted (rs : List RawRecord) (m : Nat) :
    ((monthlyBreakdown rs m).perSiteCounts.map (fun p => p.1)).Sorted siteLe ∧
    ((monthlyBreakdown rs m).perSiteCounts.map (fun p => p.1)).Nodup ∧
    (∀ p ∈ (monthlyBreakdown rs m).perSiteCounts,
      p.2 = ((monthFilter rs m).filter (fun r => r.site == p.1)).length) ∧
    (∀ r ∈ monthFilter rs m,
      r.site ∈ (monthlyBreakdown rs m).perSiteCounts.map (fun p => p.1)) := by
  have hfst : (monthlyBreakdown rs m).perSiteCounts.map (fun p => p.1)
      = List.insertionSort siteLe (((monthFilter rs m).map (fun r => r.site)).dedup) := by
    show (tickets_per_site (monthFilter rs m)).map (fun p => p.1) = _
    unfold tickets_per_site
    rw [List.map_map]
    exact List.map_id _
  refine ⟨?_, ?_, ?_, ?_⟩
  · rw [hfst]
    exact List.sorted_insertionSort siteLe _
  · rw [hfst]
    exact ((List.perm_insertionSort siteLe _).nodup_iff).mpr
      (List.nodup_dedup _)
  · intro p hp
    have hp' : p ∈ (List.insertionSort siteLe
        (((monthFilter rs m).map (fun r => r.site)).dedup)).map
        (fun s => (s, ((monthFilter rs m).filter (fun r => r.site == s)).length)) := hp
    rcases List.mem_map.mp hp' with ⟨s, _, rfl⟩
    rfl
  · intro r hr
    rw [hfst, (List.perm_insertionSort siteLe _).mem_iff, List.mem_dedup]
    exact List.mem_map_of_mem (fun r => r.site) hr

theorem foldl_min_le_init : ∀ (l : List RawRecord) (a : Nat),
    l.foldl (fun acc x => min acc x.monthKey) a ≤ a
  | [], a => le_refl a
  | x :: t, a =>
    le_trans (foldl_min_le_init t (min a x.monthKey)) (min_le_left _ _)

theorem foldl_min_le_mem : ∀ (l : List RawRecord) (a : Nat), ∀ x ∈ l,
    l.foldl (fun acc y => min acc y.monthKey) a ≤ x.monthKey
  | [], _, x, hx => absurd hx (List.not_mem_nil x)
  | y :: t, a, x, hx => by
    rcases List.mem_cons.mp hx with h | h
    · subst h
      exact le_trans (foldl_min_le_init t (min a x.monthKey)) (min_le_right _ _)
    · exact foldl_min_le_mem t (min a y.monthKey) x h

theorem le_foldl_max_init : ∀ (l : List RawRecord) (a : Nat),
    a ≤ l.foldl (fun acc x => max acc x.monthKey) a
  | [], a => le_refl a
  | x :: t, a =>
    le_trans (le_max_left _ _) (le_foldl_max_init t (max a x.monthKey))

theorem le_foldl_max_mem : ∀ (l : List RawRecord) (a : Nat), ∀ x ∈ l,
    x.monthKey ≤ l.foldl (fun acc y => max acc y.monthKey) a
  | [], _, x, hx => absurd hx (List.not_mem_nil x)
  | y :: t, a, x, hx => by
    rcases List.mem_cons.mp hx with h | h
    · subst h
      exact le_trans (le_max_right _ _) (le_foldl_max_init t (max a x.monthKey))
    · exact le_foldl_max_mem t (max a y.monthKey) x h

theorem foldl_min_attained : ∀ (l : List RawRecord) (a : Nat),
    l.foldl (fun acc x => min acc x.monthKey) a = a ∨
    ∃ x ∈ l, l.foldl (fun acc x => min acc x.monthKey) a = x.monthKey
  | [], _ => Or.inl rfl
  | y :: t, a => by
    show (t.foldl (fun acc x => min acc x.monthKey) (min a y.monthKey) = a) ∨ _
    rcases foldl_min_attained t (min a y.monthKey) with h | ⟨x, hx, hval⟩
    · by_cases hay : a ≤ y.monthKey
      · left
        rw [h, min_eq_left hay]
      · right
        refine ⟨y, List.mem_cons_self y t, ?_⟩
        show t.foldl (fun acc x => min acc x.monthKey) (min a y.monthKey) = y.monthKey
        rw [h, min_eq_right (le_of_not_le hay)]
    · exact Or.inr ⟨x, List.mem_cons_of_mem y hx, hval⟩

theorem foldl_max_attained : ∀ (l : List RawRecord) (a : Nat),
    l.foldl (fun acc x => max acc x.monthKey) a = a ∨
    ∃ x ∈ l, l.foldl (fun acc x => max acc x.monthKey) a = x.monthKey
  | [], _ => Or.inl rfl
  | y :: t, a => by
    show (t.foldl (fun acc x => max acc x.monthKey) (max a y.monthKey) = a) ∨ _
    rcases foldl_max_attained t (max a y.monthKey) with h | ⟨x, hx, hval⟩
    · by_cases hay : y.monthKey ≤ a
      · left
        rw [h, max_eq_left hay]
      · right
        refine ⟨y, List.mem_cons_self y t, ?_⟩
        show t.foldl (fun acc x => max acc x.monthKey) (max a y.monthKey) = y.monthKey
        rw [h, max_eq_right (le_of_not_le hay)]
    · exact Or.inr ⟨x, List.mem_cons_of_mem y hx, hval⟩

theorem range_map_add_sorted (lo k : Nat) :
    ((List.range k).map (fun i => lo + i)).Sorted (· < ·) :=
  List.Pairwise.map (fun i => lo + i)
    (fun _ _ hab => Nat.add_lt_add_left hab lo) (List.pairwise_lt_range k)

theorem range_map_add_nodup (lo k : Nat) :
    ((List.range k).map (fun i => lo + i)).Nodup :=
  List.Pairwise.imp (fun hab => Nat.ne_of_lt hab) (range_map_add_sorted lo k)

/-- Records in January and March 2024 only. -/
def exC3 : List RawRecord :=
  [ exRecord 2024 1 5 (RawHours.num 0) "A",
    exRecord 2024 3 5 (RawHours.num 0) "A" ]

/-- C3 counterexample: with records only in January and March 2024, the
trend has a February 2024 row with count 0 — a row for a month in which no
record falls. -/
theorem monthlyTrend_gap_counterexample :
    (monthlyTrend exC3).map (fun row => row.month) = [jan2024, jan2024 + 1, jan2024 + 2] ∧
    (monthFilter exC3 (jan2024 + 1)).length = 0 ∧
    (monthlyTrend exC3).map (fun row => row.count) = [1, 0, 1] :=
  ⟨rfl, rfl, rfl⟩

/-- C3 (amended): the trend has exactly one row per calendar month in the
closed range from the earliest to the latest month of the data — months
without records included, with count 0 and NaN mean — in strictly
increasing month order with no duplicates: every month bounded below by
some record's month and above by some record's month has a row, every row's
month lies in that closed range, and each row counts exactly the records
of its month. -/
theorem monthlyTrend_months (rs : List RawRecord) :
    ((monthlyTrend rs).map (fun row => row.month)).Sorted (· < ·) ∧
    ((monthlyTrend rs).map (fun row => row.month)).Nodup ∧
    (∀ r ∈ rs, r.monthKey ∈ (monthlyTrend rs).map (fun row => row.month)) ∧
    (∀ m : Nat, (∃ r1 ∈ rs, r1.monthKey ≤ m) → (∃ r2 ∈ rs, m ≤ r2.monthKey) →
      m ∈ (monthlyTrend rs).map (fun row => row.month)) ∧
    (∀ row ∈ monthlyTrend rs,
      (∃ r1 ∈ rs, r1.monthKey ≤ row.month) ∧ (∃ r2 ∈ rs, row.month ≤ r2.monthKey)) ∧
    (∀ row ∈ monthlyTrend rs, row.count = (monthFilter rs row.month).length ∧
      row.avgHours = listAvg ((monthFilter rs row.month).map (fun r => r.hoursVal))) := by
  cases rs with
  | nil =>
    refine ⟨List.sorted_nil, List.nodup_nil, ?_, ?_, ?_, ?_⟩
    · intro r hr
      exact absurd hr (List.not_mem_nil r)
    · intro m h1 _
      rcases h1 with ⟨r1, hr1, _⟩
      exact absurd hr1 (List.not_mem_nil r1)
    · intro row hrow
      exact absurd hrow (List.not_mem_nil row)
    · intro row hrow
      exact absurd hrow (List.not_mem_nil row)
  | cons r rest =>
    have hmonths : (monthlyTrend (r :: rest)).map (fun row => row.month)
        = (List.range ((rest.foldl (fun a x => max a x.monthKey) r.monthKey) + 1
            - (rest.foldl (fun a x => min a x.monthKey) r.monthKey))).map
          (fun i => (rest.foldl (fun a x => min a x.monthKey) r.monthKey) + i) := by
      show (monthlyTrend (r :: rest)).map (fun row => row.month) = _
      unfold monthlyTrend
      rw [List.map_map]
      rfl
    have hlo_le : ∀ x ∈ r :: rest,
        rest.foldl (fun a y => min a y.monthKey) r.monthKey ≤ x.monthKey := by
      intro x hx
      rcases List.mem_cons.mp hx with h | h
      · subst h
        exact foldl_min_le_init rest x.monthKey
      · exact foldl_min_le_mem rest r.monthKey x h
    have hhi_ge : ∀ x ∈ r :: rest,
        x.monthKey ≤ rest.foldl (fun a y => max a y.monthKey) r.monthKey := by
      intro x hx
      rcases List.mem_cons.mp hx with h | h
      · subst h
        exact le_foldl_max_init rest x.monthKey
      · exact le_foldl_max_mem rest r.monthKey x h
    have hminatt : ∃ x ∈ r :: rest,
        rest.foldl (fun a y => min a y.monthKey) r.monthKey = x.monthKey := by
      rcases foldl_min_attained rest r.monthKey with h | ⟨x, hx, hval⟩
      · exact ⟨r, List.mem_cons_self r rest, h⟩
      · exact ⟨x, List.mem_cons_of_mem r hx, hval⟩
    have hmaxatt : ∃ x ∈ r :: rest,
        rest.foldl (fun a y => max a y.monthKey) r.monthKey = x.monthKey := by
      rcases foldl_max_attained rest r.monthKey with h | ⟨x, hx, hval⟩
      · exact ⟨r, List.mem_cons_self r rest, h⟩
      · exact ⟨x, List.mem_cons_of_mem r hx, hval⟩
    refine ⟨?_, ?_, ?_, ?_, ?_, ?_⟩
    · rw [hmonths]
      exact range_map_add_sorted _ _
    · rw [hmonths]
      exact range_map_add_nodup _ _
    · intro x hx
      rw [hmonths]
      have hlo := hlo_le x hx
      have hhi := hhi_ge x hx
      refine List.mem_map.mpr ⟨x.monthKey
          - rest.foldl (fun a y => min a y.monthKey) r.monthKey, ?_, by omega⟩
      rw [List.mem_range]
      omega
    · intro m h1 h2
      rcases h1 with ⟨r1, hr1, hle1⟩
      rcases h2 with ⟨r2, hr2, hle2⟩
      have hlo := hlo_le r1 hr1
      have hhi := hhi_ge r2 hr2
      rw [hmonths]
      refine List.mem_map.mpr ⟨m
          - rest.foldl (fun a y => min a y.monthKey) r.monthKey, ?_, by omega⟩
      rw [List.mem_range]
      omega
    · intro row hrow
      have hrow' : row ∈ (List.range ((rest.foldl (fun a x => max a x.monthKey) r.monthKey) + 1
            - (rest.foldl (fun a x => min a x.monthKey) r.monthKey))).map
          (fun i =>
            ({ month := (rest.foldl (fun a x => min a x.monthKey) r.monthKey) + i
               count := (monthFilter (r :: rest)
                  ((rest.foldl (fun a x => min a x.monthKey) r.monthKey) + i)).length
               avgHours := listAvg ((monthFilter (r :: rest)
                  ((rest.foldl (fun a x => min a x.monthKey) r.monthKey) + i)).map
                  (fun s => s.hoursVal)) } : TrendRow)) := hrow
      rcases List.mem_map.mp hrow' with ⟨i, hi, rfl⟩
      rw [List.mem_range] at hi
      rcases hminatt with ⟨xmin, hxmin, hxminval⟩
      rcases hmaxatt with ⟨xmax, hxmax, hxmaxval⟩
      constructor
      · refine ⟨xmin, hxmin, ?_⟩
        show xmin.monthKey ≤ (rest.foldl (fun a x => min a x.monthKey) r.monthKey) + i
        omega
      · refine ⟨xmax, hxmax, ?_⟩
        show (rest.foldl (fun a x => min a x.monthKey) r.monthKey) + i ≤ xmax.monthKey
        omega
    · intro row hrow
      have hrow' : row ∈ (List.range ((rest.foldl (fun a x => max a x.monthKey) r.monthKey) + 1
            - (rest.foldl (fun a x => min a x.monthKey) r.monthKey))).map
          (fun i =>
            ({ month := (rest.foldl (fun a x => min a x.monthKey) r.monthKey) + i
               count := (monthFilter (r :: rest)
                  ((rest.foldl (fun a x => min a x.monthKey) r.monthKey) + i)).length
               avgHours := listAvg ((monthFilter (r :: rest)
                  ((rest.foldl (fun a x => min a x.monthKey) r.monthKey) + i)).map
                  (fun s => s.hoursVal)) } : TrendRow)) := hrow
      rcases List.mem_map.mp hrow' with ⟨i, _, rfl⟩
      exact ⟨rfl, rfl⟩

/-- A record whose Hours cell holds a negative number. -/
def exC4 : List RawRecord := [exRecord 2024 1 5 (RawHours.num (-1)) "A"]

/-- C4 counterexample: a numeric negative Hours value passes through the
normalize pass unchanged, so a normalized record can have hours below 0. -/
theorem normalize_negative_hours_counterexample :
    (normalize exC4).map (fun r => r.hoursVal) = [(-1 : Rat)] ∧ ((-1 : Rat) < 0) := by
  refine ⟨rfl, ?_⟩
  norm_num

/-- C4 (amended): after the normalize pass every hours value is numeric;
missing or non-numeric cells become 0; and the normalized hours are all
non-negative provided every numeric Hours value of the input is
non-negative (the pass does not clamp negative inputs). -/
theorem normalize_hours (rs : List RawRecord)
    (h : ∀ r ∈ rs, ∀ q : Rat, r.hours = RawHours.num q → 0 ≤ q) :
    (∀ r ∈ normalize rs, ∃ q : Rat, r.hours = RawHours.num q ∧ 0 ≤ q) ∧
    (∀ r ∈ rs, (r.hours = RawHours.missing ∨ r.hours = RawHours.nonNumeric) →
      (normalizeRecord r).hours = RawHours.num 0) := by
  constructor
  · intro r hr
    rcases List.mem_map.mp hr with ⟨r0, hr0, rfl⟩
    refine ⟨coerceHours r0.hours, rfl, ?_⟩
    cases hh : r0.hours with
    | num q =>
      have hq := h r0 hr0 q hh
      simpa [coerceHours, hh] using hq
    | nonNumeric => simp [coerceHours, hh]
    | missing => simp [coerceHours, hh]
  · intro r _ hcase
    rcases hcase with hc | hc <;> simp [normalizeRecord, coerceHours, hc]

/-- Input records for the witness of the amended hours claim: one positive
numeric cell and one missing cell. -/
def exC4w : List RawRecord :=
  [ exRecord 2024 1 5 (RawHours.num 2) "A",
    exRecord 2024 1 6 RawHours.missing "A" ]

theorem siteMonthCount_eq_count (rs : List RawRecord) (s : String) (m : Nat) :
    siteMonthCount rs s m = (siteMonthList rs s).count m := by
  have h := length_filter_key (fun r : RawRecord => r.monthKey)
      (rs.filter (fun r => r.site == s)) m
  unfold siteMonthCount siteMonthList siteRecords
  have hpred : (fun a : RawRecord => a.monthKey == m && a.site == s)
      = (fun r : RawRecord => r.site == s && r.monthKey == m) := by
    funext a
    rw [Bool.and_comm]
  rw [← h, List.filter_filter, hpred]

theorem pairs_filter_eq (rs : List RawRecord) (s : String) :
    (rs.map (fun r => (r.site, r.monthKey))).filter (fun p => p.1 == s)
      = (siteMonthList rs s).map (fun m => (s, m)) := by
  rw [List.filter_map]
  show (rs.filter (fun r => r.site == s)).map (fun r => (r.site, r.monthKey))
      = ((rs.filter (fun r => r.site == s)).map (fun r => r.monthKey)).map
        (fun m => (s, m))
  rw [List.map_map]
  apply List.map_congr_left
  intro r hr
  have hsite : r.site = s := by simpa using (List.mem_filter.mp hr).2
  simp [hsite]

theorem pairsDedup_filter_eq (rs : List RawRecord) (s : String) :
    ((rs.map (fun r => (r.site, r.monthKey))).dedup).filter (fun p => p.1 == s)
      = (siteMonthList rs s).dedup.map (fun m => (s, m)) := by
  have hinj : Function.Injective (fun m : Nat => (s, m)) := by
    intro a b hab
    simpa using hab
  rw [← dedup_filter_comm, pairs_filter_eq, dedup_map_inj hinj]

/-- The first-stage rows of one site carry, up to the key sort, exactly the
per-month counts of that site over the months it occurs in. -/
theorem stage1_filter_perm (rs : List RawRecord) (s : String) :
    (((tickets_per_site_per_month rs).filter (fun p => p.1.1 == s)).map
      (fun p => (p.2 : Rat))).Perm
      (((siteMonthList rs s).dedup).map
        (fun m => ((siteMonthList rs s).count m : Rat))) := by
  have h1 : ((tickets_per_site_per_month rs).filter (fun p => p.1.1 == s)).map
      (fun p => (p.2 : Rat))
      = ((List.insertionSort pairLe
          ((rs.map (fun r => (r.site, r.monthKey))).dedup)).filter
          (fun p => p.1 == s)).map
        (fun p => (((rs.filter
          (fun r => r.site == p.1 && r.monthKey == p.2)).length : Nat) : Rat)) := by
    unfold tickets_per_site_per_month
    rw [List.filter_map, List.map_map]
    rfl
  rw [h1]
  have h2 := (((List.perm_insertionSort pairLe
      ((rs.map (fun r => (r.site, r.monthKey))).dedup)).filter
      (fun p => p.1 == s)).map
      (fun p : String × Nat => (((rs.filter
        (fun r => r.site == p.1 && r.monthKey == p.2)).length : Nat) : Rat)))
  refine h2.trans ?_
  rw [pairsDedup_filter_eq rs s, List.map_map]
  have h3 : ((fun p : String × Nat => (((rs.filter
        (fun r => r.site == p.1 && r.monthKey == p.2)).length : Nat) : Rat))
      ∘ (fun m => (s, m)))
      = (fun m => ((siteMonthList rs s).count m : Rat)) := by
    funext m
    show ((siteMonthCount rs s m : Nat) : Rat) = _
    rw [siteMonthCount_eq_count]
  rw [h3]

/-- A site appears among the second-stage group keys exactly when it
appears in the data. -/
theorem mem_stage2_sites (rs : List RawRecord) (s : String) :
    s ∈ ((tickets_per_site_per_month rs).map (fun p => p.1.1)).dedup
      ↔ s ∈ rs.map (fun r => r.site) := by
  rw [List.mem_dedup]
  unfold tickets_per_site_per_month
  rw [List.map_map]
  show s ∈ (List.insertionSort pairLe
      ((rs.map (fun r => (r.site, r.monthKey))).dedup)).map (fun p => p.1) ↔ _
  rw [List.mem_map]
  constructor
  · rintro ⟨p, hp, rfl⟩
    have hp' : p ∈ (rs.map (fun r => (r.site, r.monthKey))).dedup :=
      ((List.perm_insertionSort pairLe _).mem_iff).mp hp
    rcases List.mem_map.mp (List.mem_dedup.mp hp') with ⟨r, hr, rfl⟩
    exact List.mem_map_of_mem (fun r => r.site) hr
  · intro hs
    rcases List.mem_map.mp hs with ⟨r, hr, rfl⟩
    refine ⟨(r.site, r.monthKey), ?_, rfl⟩
    exact ((List.perm_insertionSort pairLe _).mem_iff).mpr
      (List.mem_dedup.mpr
        (List.mem_map_of_mem (fun r => (r.site, r.monthKey)) hr))

/-- The looked-up second-stage average of a present site is the mean of
its per-month counts over the months it occurs in. -/
theorem avg_tickets_lookup (rs : List RawRecord) (s : String)
    (hs : s ∈ rs.map (fun r => r.site)) :
    List.lookup s (avg_tickets_by_site rs)
      = some (ratMean (((siteMonthList rs s).dedup).map
          (fun m => ((siteMonthList rs s).count m : Rat)))) := by
  unfold avg_tickets_by_site
  have hmem : s ∈ List.insertionSort siteLe
      (((tickets_per_site_per_month rs).map (fun p => p.1.1)).dedup) :=
    ((List.perm_insertionSort siteLe _).mem_iff).mpr
      ((mem_stage2_sites rs s).mpr hs)
  rw [lookup_map_key (fun k => ratMean
      (((tickets_per_site_per_month rs).filter (fun p => p.1.1 == k)).map
        (fun p => (p.2 : Rat)))) s _ hmem]
  exact congrArg some (ratMean_perm (stage1_filter_perm rs s))

/-- The per-month counts of a site sum to its total record count. -/
theorem siteCounts_sum (rs : List RawRecord) (s : String) :
    ((((siteMonthList rs s).dedup).map
      (fun m => ((siteMonthList rs s).count m : Rat)))).sum
      = ((siteRecords rs s).length : Rat) := by
  have h := List.sum_map_count_dedup_eq_length (siteMonthList rs s)
  simp only [count_decEq] at h
  have hcast : ((((siteMonthList rs s).dedup).map
      (fun m => ((siteMonthList rs s).count m : Rat)))).sum
      = (((((siteMonthList rs s).dedup).map
        (fun m => (siteMonthList rs s).count m)).sum : Nat) : Rat) := by
    rw [Nat.cast_list_sum, List.map_map]
    rfl
  rw [hcast, h]
  have hlen : (siteMonthList rs s).length = (siteRecords rs s).length :=
    List.length_map _ _
  rw [hlen]

/-- The record-weighted flat average rewritten as the self-weighted mean of
the per-month counts. -/
theorem flatPerRecordAvg_eq (rs : List RawRecord) (s : String) :
    flatPerRecordAvg rs s
      = ratMean ((siteMonthList rs s).map
          (fun m => ((siteMonthList rs s).count m : Rat))) := by
  unfold flatPerRecordAvg
  congr 1
  show (siteRecords rs s).map (fun r => (siteMonthCount rs s r.monthKey : Rat))
      = ((siteRecords rs s).map (fun r => r.monthKey)).map
        (fun m => ((siteMonthList rs s).count m : Rat))
  rw [List.map_map]
  apply List.map_congr_left
  intro r _
  show ((siteMonthCount rs s r.monthKey : Nat) : Rat)
      = ((siteMonthList rs s).count r.monthKey : Rat)
  rw [siteMonthCount_eq_count]

theorem site_length_pos (rs : List RawRecord) (s : String)
    (hs : s ∈ rs.map (fun r => r.site)) : 0 < (siteRecords rs s).length := by
  obtain ⟨r0, hr0, hr0s⟩ := List.mem_map.mp hs
  have hr0' : r0 ∈ siteRecords rs s :=
    List.mem_filter.mpr ⟨hr0, by simp [hr0s]⟩
  exact List.length_pos.mpr (fun hnil => by simp [hnil] at hr0')

theorem siteMonthList_ne_nil (rs : List RawRecord) (s : String)
    (hs : s ∈ rs.map (fun r => r.site)) : siteMonthList rs s ≠ [] := by
  intro hc
  have h1 := site_length_pos rs s hs
  have h2 : (siteMonthList rs s).length = (siteRecords rs s).length :=
    List.length_map _ _
  rw [hc] at h2
  simp at h2
  omega

theorem siteCounts_pos (rs : List RawRecord) (s : String) :
    ∀ a ∈ ((siteMonthList rs s).dedup).map
      (fun m => ((siteMonthList rs s).count m : Rat)), 0 < a := by
  intro a ha
  rcases List.mem_map.mp ha with ⟨m, hm, rfl⟩
  have hm' : m ∈ siteMonthList rs s := List.mem_dedup.mp hm
  have hne : (siteMonthList rs s).count m ≠ 0 :=
    fun h0 => (List.count_eq_zero.mp h0) hm'
  have : 0 < (siteMonthList rs s).count m := Nat.pos_of_ne_zero hne
  exact_mod_cast this

/-- A site absent in some month has a two-stage average different from its
total count divided by the total number of months. -/
theorem avg_ne_total_div (rs : List RawRecord) (s : String)
    (hs : s ∈ rs.map (fun r => r.site))
    (hlt : (siteMonthList rs s).dedup.length < totalMonths rs) :
    List.lookup s (avg_tickets_by_site rs)
      ≠ some (((siteRecords rs s).length : Rat) / (totalMonths rs : Rat)) := by
  intro heq
  rw [avg_tickets_lookup rs s hs] at heq
  have heq' := Option.some.inj heq
  unfold ratMean at heq'
  rw [siteCounts_sum rs s, List.length_map] at heq'
  have hp : 0 < ((siteMonthList rs s).dedup.length : Rat) := by
    have h0 : (siteMonthList rs s).dedup ≠ [] :=
      fun hc => siteMonthList_ne_nil rs s hs ((List.dedup_eq_nil _).mp hc)
    have : 0 < (siteMonthList rs s).dedup.length := List.length_pos.mpr h0
    exact_mod_cast this
  have hT : 0 < (totalMonths rs : Rat) := by
    have : 0 < totalMonths rs := lt_of_le_of_lt (Nat.zero_le _) hlt
    exact_mod_cast this
  have hL : 0 < ((siteRecords rs s).length : Rat) := by
    exact_mod_cast site_length_pos rs s hs
  rw [div_eq_div_iff (ne_of_gt hp) (ne_of_gt hT)] at heq'
  have hTp : (totalMonths rs : Rat) = ((siteMonthList rs s).dedup.length : Rat) :=
    mul_left_cancel₀ (ne_of_gt hL) heq'
  have : totalMonths rs = (siteMonthList rs s).dedup.length := by exact_mod_cast hTp
  omega

/-- A site with unequal monthly volumes has a two-stage average strictly
below (hence different from) the record-weighted flat average. -/
theorem avg_ne_flat (rs : List RawRecord) (s : String)
    (hs : s ∈ rs.map (fun r => r.site))
    (hcnt : ∃ m1 ∈ (siteMonthList rs s).dedup, ∃ m2 ∈ (siteMonthList rs s).dedup,
      (siteMonthList rs s).count m1 ≠ (siteMonthList rs s).count m2) :
    List.lookup s (avg_tickets_by_site rs) ≠ some (flatPerRecordAvg rs s) := by
  intro heq
  rw [avg_tickets_lookup rs s hs] at heq
  have heq' := Option.some.inj heq
  have hflat : flatPerRecordAvg rs s
      = ((((siteMonthList rs s).dedup).map
          (fun m => ((siteMonthList rs s).count m : Rat))).map
          (fun y => y^2)).sum
        / (((siteMonthList rs s).dedup).map
          (fun m => ((siteMonthList rs s).count m : Rat))).sum := by
    rw [flatPerRecordAvg_eq]
    unfold ratMean
    have hnum : ((siteMonthList rs s).map
        (fun m => ((siteMonthList rs s).count m : Rat))).sum
        = ((((siteMonthList rs s).dedup).map
          (fun m => ((siteMonthList rs s).count m : Rat))).map
          (fun y => y^2)).sum := by
      rw [sum_map_count_mul (fun m => ((siteMonthList rs s).count m : Rat)),
        List.map_map]
      congr 1
      apply List.map_congr_left
      intro m _
      show ((siteMonthList rs s).count m : Rat) * ((siteMonthList rs s).count m : Rat)
          = (((siteMonthList rs s).count m : Rat))^2
      ring
    have hden : (((siteMonthList rs s).map
        (fun m => ((siteMonthList rs s).count m : Rat))).length : Rat)
        = (((siteMonthList rs s).dedup).map
          (fun m => ((siteMonthList rs s).count m : Rat))).sum := by
      rw [siteCounts_sum rs s, List.length_map]
      have : (siteMonthList rs s).length = (siteRecords rs s).length :=
        List.length_map _ _
      rw [this]
    rw [hnum, hden]
  rcases hcnt with ⟨m1, hm1, m2, hm2, hne⟩
  have hpair : ∃ a ∈ ((siteMonthList rs s).dedup).map
      (fun m => ((siteMonthList rs s).count m : Rat)),
      ∃ b ∈ ((siteMonthList rs s).dedup).map
      (fun m => ((siteMonthList rs s).count m : Rat)), a ≠ b := by
    refine ⟨((siteMonthList rs s).count m1 : Rat),
      List.mem_map_of_mem _ hm1,
      ((siteMonthList rs s).count m2 : Rat),
      List.mem_map_of_mem _ hm2, ?_⟩
    exact_mod_cast hne
  have hlt := mean_lt_selfWeighted
    (((siteMonthList rs s).dedup).map
      (fun m => ((siteMonthList rs s).count m : Rat)))
    (siteCounts_pos rs s) hpair
  rw [hflat] at heq'
  unfold ratMean at heq'
  exact absurd heq' (ne_of_lt hlt)

/-- Site A with 1 ticket in January and 3 in February 2024: unequal
monthly volumes, yet present in every month of the data. -/
def exC1 : List RawRecord :=
  [ exRecord 2024 1 5 (RawHours.num 0) "A",
    exRecord 2024 2 1 (RawHours.num 0) "A",
    exRecord 2024 2 2 (RawHours.num 0) "A",
    exRecord 2024 2 3 (RawHours.num 0) "A" ]

/-- C1 counterexample: site A has unequal monthly volumes (1 and 3), yet
its two-stage average equals totalCount/totalMonths = 4/2, because A occurs
in every month of the data — refuting the claim that the result differs
from totalCount/totalMonths whenever monthly volumes are unequal. -/
theorem siteMonthlyAverage_counterexample :
    siteMonthCount exC1 "A" jan2024 ≠ siteMonthCount exC1 "A" (jan2024 + 1) ∧
    List.lookup "A" (avg_tickets_by_site exC1)
      = some (((siteRecords exC1 "A").length : Rat) / (totalMonths exC1 : Rat)) := by
  refine ⟨by decide, ?_⟩
  have h := avg_tickets_lookup exC1 "A" (by decide)
  have hlist : ((siteMonthList exC1 "A").dedup).map
      (fun m => ((siteMonthList exC1 "A").count m : Rat))
      = [((1 : Nat) : Rat), ((3 : Nat) : Rat)] := rfl
  have hL : (siteRecords exC1 "A").length = 4 := rfl
  have hT : totalMonths exC1 = 2 := rfl
  rw [h, hlist, hL, hT]
  norm_num [ratMean]

/-- C1 (amended): the two-stage aggregation gives each present site the
mean of its per-(site, month) counts over only the months it occurs in;
this differs from totalCount/totalMonths whenever the site is absent in
some month of the data, and differs from the flat per-record average
whenever the site's monthly volumes are unequal — but each condition pairs
only with its own inequality, not with both. -/
theorem siteMonthlyAverage_two_stage (rs : List RawRecord) (s : String)
    (hs : s ∈ rs.map (fun r => r.site)) :
    List.lookup s (avg_tickets_by_site rs)
      = some (ratMean (((siteMonthList rs s).dedup).map
          (fun m => ((siteMonthList rs s).count m : Rat)))) ∧
    ((siteMonthList rs s).dedup.length < totalMonths rs →
      List.lookup s (avg_tickets_by_site rs)
        ≠ some (((siteRecords rs s).length : Rat) / (totalMonths rs : Rat))) ∧
    ((∃ m1 ∈ (siteMonthList rs s).dedup, ∃ m2 ∈ (siteMonthList rs s).dedup,
        (siteMonthList rs s).count m1 ≠ (siteMonthList rs s).count m2) →
      List.lookup s (avg_tickets_by_site rs) ≠ some (flatPerRecordAvg rs s)) :=
  ⟨avg_tickets_lookup rs s hs,
   fun hlt => avg_ne_total_div rs s hs hlt,
   fun hcnt => avg_ne_flat rs s hs hcnt⟩

/-- Witness data: site A in January and twice in March, site B in
February — A is absent in one of the three data months and has unequal
monthly volumes. -/
def exC1w : List RawRecord :=
  [ exRecord 2024 1 5 (RawHours.num 0) "A",
    exRecord 2024 2 10 (RawHours.num 0) "B",
    exRecord 2024 3 1 (RawHours.num 0) "A",
    exRecord 2024 3 2 (RawHours.num 0) "A" ]

theorem siteMonthlyAverage_two_stage_witness :
    ("A" ∈ exC1w.map (fun r => r.site)) ∧
    List.lookup "A" (avg_tickets_by_site exC1w)
      = some (ratMean (((siteMonthList exC1w "A").dedup).map
          (fun m => ((siteMonthList exC1w "A").count m : Rat)))) ∧
    List.lookup "A" (avg_tickets_by_site exC1w)
      ≠ some (((siteRecords exC1w "A").length : Rat) / (totalMonths exC1w : Rat)) ∧
    List.lookup "A" (avg_tickets_by_site exC1w)
      ≠ some (flatPerRecordAvg exC1w "A") := by
  have hs : "A" ∈ exC1w.map (fun r => r.site) := by decide
  have h := siteMonthlyAverage_two_stage exC1w "A" hs
  exact ⟨hs, h.1, h.2.1 (by decide), h.2.2 (by decide)⟩

theorem normalize_hours_witness :
    (∀ r ∈ normalize exC4w, ∃ q : Rat, r.hours = RawHours.num q ∧ 0 ≤ q) ∧
    (∀ r ∈ exC4w, (r.hours = RawHours.missing ∨ r.hours = RawHours.nonNumeric) →
      (normalizeRecord r).hours = RawHours.num 0) :=
  normalize_hours exC4w (by
    intro r hr q hq
    rcases List.mem_cons.mp hr with h | h
    · subst h
      have h2 : RawHours.num 2 = RawHours.num q := hq
      cases h2
      norm_num
    · rcases List.mem_cons.mp h with h' | h'
      · subst h'
        exact absurd hq (by simp [exRecord])
      · exact absurd h' (List.not_mem_nil r))

end DXC
